import Mathlib

/-!
# Verification of the concurrent HTTP file server core

Shallow embedding, in Lean 4, of the components of the server that the
specification's claims are about:

* the bounded producer/consumer connection queue (`src/logger.c`,
  `connection_queue_*`, capacity `QUEUE_SIZE = 100`),
* the per-worker LRU file cache (`src/file_cache.c`),
* the request handler and file-delivery branch structure (`src/http.c`),
* the shared statistics record and its update operations (`src/stats.h`,
  `src/stats.c`).

Each C function is translated into a pure Lean function on an explicit state
type.  Blocking semaphore waits are modelled, as is standard for a sequential
(single-producer / single-consumer interleaving) embedding, as steps that do
not complete: a `sem_wait` on a zero-valued semaphore leaves the state
unchanged and reports `blocked`.  C `size_t` and `int` values are modelled as
`Nat` / `Int`; no arithmetic in the verified operations can overflow the
machine width on the states the theorems quantify over.
-/

namespace Server

-- ============================================================================
-- Bounded connection queue (src/logger.c, connection_queue_* functions)
-- ============================================================================

/-- Capacity of the bounded connection queue, `#define QUEUE_SIZE 100`
(src/connection_queue.h). -/
def QUEUE_SIZE : Nat := 100

/-- The `connection_queue_t` struct (src/connection_queue.h).  The C array
`int connections[QUEUE_SIZE]` is modelled as a function from indices to
values; only indices `< QUEUE_SIZE` are ever read or written.  The three
semaphores are modelled by their counter values; the binary `mutex` is
acquired and released inside each operation of the sequential model and
therefore carries no state between operations. -/
structure ConnectionQueue where
  connections : Nat → Int
  head : Nat
  tail : Nat
  shutdown : Bool
  empty_slots : Nat
  filled_slots : Nat

/-- Result of a queue operation: `ok v` models a return value `v ≥ 0`
(or `0` for success), `fail` models returning `-1`, and `blocked` models a
`sem_wait` that cannot complete in the sequential interleaving. -/
inductive OpResult where
  | ok (v : Int)
  | fail
  | blocked
deriving DecidableEq, Repr

/-- `connection_queue_init` (src/logger.c:131-167): head = tail = 0,
shutdown = 0, every slot set to `-1` by `memset`, `empty_slots` initialized
to `QUEUE_SIZE`, `filled_slots` to `0`. -/
def connection_queue_init : ConnectionQueue :=
  { connections := fun _ => -1
    head := 0
    tail := 0
    shutdown := false
    empty_slots := QUEUE_SIZE
    filled_slots := 0 }

/-- `connection_queue_enqueue` (src/logger.c:172-202).  Rejects negative
descriptors; waits on `empty_slots` (blocked when the counter is zero);
re-posts `empty_slots` and fails if shutdown was signalled; otherwise writes
the descriptor at `tail`, advances `tail` modulo `QUEUE_SIZE`, and posts
`filled_slots`. -/
def connection_queue_enqueue (q : ConnectionQueue) (client_fd : Int) :
    ConnectionQueue × OpResult :=
  if client_fd < 0 then (q, .fail)
  else if q.empty_slots = 0 then (q, .blocked)
  else if q.shutdown then (q, .fail)
  else
    ({ q with
        connections := fun j => if j = q.tail then client_fd else q.connections j
        tail := (q.tail + 1) % QUEUE_SIZE
        empty_slots := q.empty_slots - 1
        filled_slots := q.filled_slots + 1 }, .ok 0)

/-- `connection_queue_try_enqueue` (src/logger.c:207-238).  Identical to the
blocking enqueue except that the initial `sem_trywait(&queue->empty_slots)`
fails immediately (returning `-1`, "queue full") instead of blocking. -/
def connection_queue_try_enqueue (q : ConnectionQueue) (client_fd : Int) :
    ConnectionQueue × OpResult :=
  if client_fd < 0 then (q, .fail)
  else if q.empty_slots = 0 then (q, .fail)
  else if q.shutdown then (q, .fail)
  else
    ({ q with
        connections := fun j => if j = q.tail then client_fd else q.connections j
        tail := (q.tail + 1) % QUEUE_SIZE
        empty_slots := q.empty_slots - 1
        filled_slots := q.filled_slots + 1 }, .ok 0)

/-- `connection_queue_dequeue` (src/logger.c:243-274).  Waits on
`filled_slots` (blocked at zero); re-posts `filled_slots` and fails on
shutdown; otherwise reads the descriptor at `head`, clears the slot to `-1`,
advances `head` modulo `QUEUE_SIZE`, posts `empty_slots`, and returns the
descriptor. -/
def connection_queue_dequeue (q : ConnectionQueue) :
    ConnectionQueue × OpResult :=
  if q.filled_slots = 0 then (q, .blocked)
  else if q.shutdown then (q, .fail)
  else
    ({ q with
        connections := fun j => if j = q.head then -1 else q.connections j
        head := (q.head + 1) % QUEUE_SIZE
        filled_slots := q.filled_slots - 1
        empty_slots := q.empty_slots + 1 }, .ok (q.connections q.head))

/-- The operations a producer/consumer pair may issue (the three operations
quantified over by the queue claims). -/
inductive QueueOp where
  | enq (fd : Int)
  | tryEnq (fd : Int)
  | deq
deriving DecidableEq, Repr

/-- One step of the concrete queue under an operation. -/
def queueStep (q : ConnectionQueue) : QueueOp → ConnectionQueue × OpResult
  | .enq fd => connection_queue_enqueue q fd
  | .tryEnq fd => connection_queue_try_enqueue q fd
  | .deq => connection_queue_dequeue q

/-- Run a sequence of operations on the concrete queue, collecting the
result of each operation. -/
def queueRun : ConnectionQueue → List QueueOp → ConnectionQueue × List OpResult
  | q, [] => (q, [])
  | q, op :: ops =>
      let s := queueStep q op
      let r := queueRun s.1 ops
      (r.1, s.2 :: r.2)

/-- The counter invariant of the bounded queue: the filled-slot counter stays
within capacity and the two semaphore counters sum to the capacity. -/
def QueueInv (q : ConnectionQueue) : Prop :=
  q.filled_slots ≤ QUEUE_SIZE ∧ q.filled_slots + q.empty_slots = QUEUE_SIZE

-- ============================================================================
-- Refinement of the ring buffer by an abstract FIFO list (claim C2)
-- ============================================================================

/-- Abstraction function: the sequence of values currently stored in the ring,
read from `head`, one per filled slot, wrapping modulo the capacity. -/
def listOf (q : ConnectionQueue) : List Int :=
  (List.range q.filled_slots).map (fun i => q.connections ((q.head + i) % QUEUE_SIZE))

/-- Structural invariant of the ring buffer relating the indices to the
semaphore counters: the consumer index is in range, the producer index is the
consumer index advanced by the number of filled slots (mod capacity), the two
counters sum to the capacity, and shutdown has not been signalled. -/
structure QueueWF (q : ConnectionQueue) : Prop where
  head_lt : q.head < QUEUE_SIZE
  tail_eq : q.tail = (q.head + q.filled_slots) % QUEUE_SIZE
  count : q.filled_slots + q.empty_slots = QUEUE_SIZE
  nosd : q.shutdown = false

/-- Modelled from the spec: abstract FIFO enqueue on a plain list, bounded by
the capacity ("items dequeued in FIFO order relative to enqueue completion";
blocking enqueue waits while the queue is full).  Negative descriptors are
rejected as in the concrete interface. -/
def absEnqueue (l : List Int) (fd : Int) : List Int × OpResult :=
  if fd < 0 then (l, .fail)
  else if l.length = QUEUE_SIZE then (l, .blocked)
  else (l ++ [fd], .ok 0)

/-- Modelled from the spec: abstract non-blocking FIFO enqueue; a full queue
reports failure instead of blocking. -/
def absTryEnqueue (l : List Int) (fd : Int) : List Int × OpResult :=
  if fd < 0 then (l, .fail)
  else if l.length = QUEUE_SIZE then (l, .fail)
  else (l ++ [fd], .ok 0)

/-- Modelled from the spec: abstract FIFO dequeue returns the oldest element. -/
def absDequeue : List Int → List Int × OpResult
  | [] => ([], .blocked)
  | x :: xs => (xs, .ok x)

/-- One step of the abstract FIFO queue. -/
def absStep (l : List Int) : QueueOp → List Int × OpResult
  | .enq fd => absEnqueue l fd
  | .tryEnq fd => absTryEnqueue l fd
  | .deq => absDequeue l

/-- Run a sequence of operations on the abstract FIFO queue. -/
def absRun : List Int → List QueueOp → List Int × List OpResult
  | l, [] => (l, [])
  | l, op :: ops =>
      let s := absStep l op
      let r := absRun s.1 ops
      (r.1, s.2 :: r.2)

/-- A concrete queue state with all 100 slots occupied. -/
def fullQueue : ConnectionQueue :=
  { connections := fun _ => 7
    head := 0
    tail := 0
    shutdown := false
    empty_slots := 0
    filled_slots := QUEUE_SIZE }

-- (cache, handler and statistics definitions follow; all lemmas and
-- claim theorems are grouped at the end of the file)

-- ============================================================================
-- LRU file cache (src/file_cache.c, src/file_cache.h)
-- ============================================================================

/-- Maximum cacheable file size, `#define MAX_FILE_SIZE (1024 * 1024)`
(src/file_cache.h). -/
def MAX_FILE_SIZE : Nat := 1024 * 1024

/-- Maximum stored key length, `#define MAX_PATH_LEN 512` (src/file_cache.h). -/
def MAX_PATH_LEN : Nat := 512

/-- The `cache_entry_t` struct (src/file_cache.h).  Paths and contents are
byte strings, modelled as lists of byte values; `content_size` is the length
of `content`.  The `prev`/`next` links of the doubly-linked recency list are
represented by the entry's position in the cache's entry list. -/
structure CacheEntry where
  path : List Nat
  content : List Nat
  last_access : Nat
deriving DecidableEq, Repr

/-- The `file_cache_t` struct (src/file_cache.h).  The doubly-linked LRU list
from `head` (most recently used) to `tail` (least recently used) is modelled
as `entries`, most recently used first.  `total_size`, `max_size` (C
`size_t`) and `entry_count` (C `int`, never negative here) are modelled as
`Nat`; the per-cache rwlock is acquired and released inside each operation
and carries no state. -/
structure FileCache where
  entries : List CacheEntry
  total_size : Nat
  max_size : Nat
  entry_count : Nat
deriving DecidableEq, Repr

/-- `find_entry` (src/file_cache.c:53-62): linear scan of the list comparing
paths with `strcmp`. -/
def find_entry (c : FileCache) (path : List Nat) : Option CacheEntry :=
  c.entries.find? (fun e => decide (e.path = path))

/-- `evict_lru` (src/file_cache.c:67-94): unlink the tail entry, subtract its
size from `total_size`, decrement `entry_count`. -/
def evict_lru (c : FileCache) : FileCache :=
  match c.entries.getLast? with
  | none => c
  | some lru =>
      { c with
          entries := c.entries.dropLast
          total_size := c.total_size - lru.content.length
          entry_count := c.entry_count - 1 }

/-- Body of the `while (total_size + needed > max_size && tail)` loop of
`make_space` (src/file_cache.c:99-104).  Each iteration removes one entry, so
the loop runs at most `entries.length` times; the fuel argument is
instantiated with exactly that bound in `make_space`. -/
def make_space_loop : Nat → FileCache → Nat → FileCache
  | 0, c, _ => c
  | fuel + 1, c, needed =>
      if c.max_size < c.total_size + needed ∧ c.entries ≠ [] then
        make_space_loop fuel (evict_lru c) needed
      else c

/-- `make_space` (src/file_cache.c:99-104): evict LRU entries until
`total_size + needed ≤ max_size` or the list is empty. -/
def make_space (c : FileCache) (needed : Nat) : FileCache :=
  make_space_loop c.entries.length c needed

/-- `file_cache_init` (src/file_cache.c:110-130): rejects a non-positive
size, otherwise produces the empty cache with
`max_size = max_size_mb * 1024 * 1024` bytes. -/
def file_cache_init (max_size_mb : Int) : Option FileCache :=
  if max_size_mb ≤ 0 then none
  else some
    { entries := []
      total_size := 0
      max_size := max_size_mb.toNat * 1024 * 1024
      entry_count := 0 }

/-- `file_cache_destroy` (src/file_cache.c:132-157): free every entry and
reset the list, `total_size` and `entry_count` to zero (`max_size` is left
as is by the C code). -/
def file_cache_destroy (c : FileCache) : FileCache :=
  { c with entries := [], total_size := 0, entry_count := 0 }

/-- `file_cache_get` (src/file_cache.c:159-187).  On a miss, return `-1`
(modelled as `none`) with the cache unchanged.  On a hit, update
`last_access`, move the entry to the front of the recency list, and return a
borrowed reference to the content (modelled as `some content`, the C return
value `0`). -/
def file_cache_get (c : FileCache) (path : List Nat) (now : Nat) :
    FileCache × Option (List Nat) :=
  match find_entry c path with
  | none => (c, none)
  | some e =>
      ({ c with
          entries := { e with last_access := now } ::
            c.entries.eraseP (fun x => decide (x.path = path)) },
        some e.content)

/-- `file_cache_put` (src/file_cache.c:189-285) for non-NULL arguments; the
NULL-argument guards of line 191 are modelled by `file_cache_put_checked`.
A zero `content_size` (same guard line) and sizes above `MAX_FILE_SIZE` or
`max_size` are rejected with `-1`.  If the key exists, the entry's buffer is
replaced and `total_size` adjusted by the size difference — the C code calls
no `make_space` on this path — and the entry moves to the front.  Otherwise
`make_space` evicts from the tail, and the new entry is linked at the front
with its path truncated to `MAX_PATH_LEN - 1` bytes by `strncpy`. -/
def file_cache_put (c : FileCache) (path content : List Nat) (now : Nat) :
    FileCache × Int :=
  if content.length = 0 then (c, -1)
  else if MAX_FILE_SIZE < content.length then (c, -1)
  else if c.max_size < content.length then (c, -1)
  else
    match find_entry c path with
    | some existing =>
        ({ c with
            total_size := c.total_size - existing.content.length + content.length
            entries :=
              { existing with content := content, last_access := now } ::
                c.entries.eraseP (fun x => decide (x.path = path)) }, 0)
    | none =>
        let c1 := make_space c content.length
        let newE : CacheEntry :=
          { path := path.take (MAX_PATH_LEN - 1)
            content := content
            last_access := now }
        ({ c1 with
            entries := newE :: c1.entries
            total_size := c1.total_size + content.length
            entry_count := c1.entry_count + 1 }, 0)

/-- `file_cache_put` with the NULL-argument guards of src/file_cache.c:191:
a NULL cache, path or content pointer fails with `-1` before anything is
touched (the zero-size guard of the same line lives in `file_cache_put`). -/
def file_cache_put_checked (cache : Option FileCache) (path : Option (List Nat))
    (content : Option (List Nat)) (now : Nat) : Option FileCache × Int :=
  match cache, path, content with
  | some c, some p, some b =>
      let r := file_cache_put c p b now
      (some r.1, r.2)
  | c, _, _ => (c, -1)

/-- `file_cache_stats` (src/file_cache.c:287-302): report `entry_count` and
`total_size`; the cache is not modified. -/
def file_cache_stats (c : FileCache) : Nat × Nat :=
  (c.entry_count, c.total_size)

/-- Wellformedness of a cache state: the maintained `total_size` and
`entry_count` fields agree with the entry list.  `file_cache_init`
establishes it and every operation preserves it. -/
def CacheWF (c : FileCache) : Prop :=
  c.total_size = (c.entries.map (fun e => e.content.length)).sum ∧
    c.entry_count = c.entries.length

/-- Two entries whose combined sizes exactly fill a 1 MiB cache; replacing
the 1-byte entry keyed `[112]` with a full 1 MiB buffer drives `total_size`
to 2097151 bytes, above `max_size`.  This state is reachable from
`file_cache_init 1` by putting `[112]` (1 byte) and then `[113]`
(1048575 bytes). -/
def overfullPre : FileCache :=
  { entries :=
      [ { path := [113], content := List.replicate 1048575 0, last_access := 0 }
      , { path := [112], content := [0], last_access := 0 } ]
    total_size := 1048576
    max_size := 1048576
    entry_count := 2 }

/-- The empty cache produced by `file_cache_init 1`
(`max_size = 1 MiB = 1048576` bytes). -/
def cacheMiB : FileCache :=
  { entries := [], total_size := 0, max_size := 1048576, entry_count := 0 }

/-- The empty cache produced by `file_cache_init 2`
(`max_size = 2 MiB = 2097152` bytes). -/
def cache2MiB : FileCache :=
  { entries := [], total_size := 0, max_size := 2097152, entry_count := 0 }

/-- A path of 512 bytes: one byte more than the 511 bytes that the
`char path[MAX_PATH_LEN]` entry key buffer can store besides the
terminator. -/
def longPath : List Nat := List.replicate MAX_PATH_LEN 97

/-- `is_cacheable` from `send_file_response` (src/http.c:150): a file is
read into memory and inserted into the cache only when a cache is available
and `0 < file_size < MAX_FILE_SIZE` — strictly below the bound. -/
def is_cacheable (cacheAvailable : Bool) (file_size : Int) : Bool :=
  cacheAvailable && (0 : Int) < file_size && file_size < (MAX_FILE_SIZE : Int)

-- ============================================================================
-- Shared statistics record (src/stats.h, src/stats.c current variant)
-- ============================================================================

/-- The `server_stats_t` struct (src/stats.h:9-26).  C `int` / `long long`
counters are modelled as `Int`; no counter reaches the machine width in the
scenarios quantified over.  The embedded process-shared semaphore is
acquired and released inside each operation and carries no state. -/
structure ServerStats where
  total_requests : Int
  bytes_sent : Int
  http_200_count : Int
  http_404_count : Int
  http_500_count : Int
  active_connections : Int
  total_response_time_ms : Int
  response_count : Int
deriving DecidableEq, Repr

/-- The data fields of `server_stats_t` in declaration order (src/stats.h:
9-26), besides the embedded semaphore. -/
def serverStatsFields : List String :=
  ["total_requests", "bytes_sent", "http_200_count", "http_404_count",
   "http_500_count", "active_connections", "total_response_time_ms",
   "response_count"]

/-- The operations declared by the statistics interface (src/stats.h:31-39). -/
def statsInterface : List String :=
  ["init_stats", "cleanup_stats", "update_stats", "update_stats_with_code",
   "increment_active_connections", "decrement_active_connections",
   "add_response_time", "print_global_stats", "get_stats"]

/-- `update_stats_with_code` (stats.c:187-213, current variant): increments
the total request count and byte count, then exactly one code counter —
the 200 counter for code 200, the 404 counter for code 404, the 5xx counter
for any code `>= 500`; other codes increment no code counter. -/
def update_stats_with_code (s : ServerStats) (bytes code : Int) : ServerStats :=
  let s1 := { s with
      total_requests := s.total_requests + 1
      bytes_sent := s.bytes_sent + bytes }
  if code = 200 then { s1 with http_200_count := s1.http_200_count + 1 }
  else if code = 404 then { s1 with http_404_count := s1.http_404_count + 1 }
  else if 500 ≤ code then { s1 with http_500_count := s1.http_500_count + 1 }
  else s1

/-- `increment_active_connections` (stats.c:218-224, current variant). -/
def increment_active_connections (s : ServerStats) : ServerStats :=
  { s with active_connections := s.active_connections + 1 }

/-- `decrement_active_connections` (stats.c:229-237, current variant):
decrements, clamping at zero. -/
def decrement_active_connections (s : ServerStats) : ServerStats :=
  if 0 < s.active_connections then
    { s with active_connections := s.active_connections - 1 }
  else s

/-- `add_response_time` (stats.c:242-249, current variant): accumulates the
sample and increments the sample count. -/
def add_response_time (s : ServerStats) (time_ms : Int) : ServerStats :=
  { s with
      total_response_time_ms := s.total_response_time_ms + time_ms
      response_count := s.response_count + 1 }

-- ============================================================================
-- Request handler branch structure (src/http.c, cache-aware current variant)
-- ============================================================================

/-- A parsed request line: method and target path as produced by
`parse_http_request` (the textual parser is an external collaborator per the
spec's scope). -/
structure HttpRequest where
  method : String
  path : String
deriving DecidableEq, Repr

/-- Filesystem outcome for the resolved full path inside
`send_file_response` (src/http.c:118-147): `fopen` failure, `fstat` failure,
a directory, or a regular file of the given size. -/
inductive FileOutcome where
  | openFail
  | statFail
  | isDir
  | ok (file_size : Int)
deriving DecidableEq, Repr

/-- Per-connection environment of one `handle_client_connection` run: the
`recv` return value, the parse result, cache availability (non-NULL cache
pointer), the `file_cache_get` outcome for the resolved path, and the
filesystem outcome. -/
structure RequestEnv where
  bytes_read : Int
  parsed : Option HttpRequest
  cacheAvailable : Bool
  cacheHit : Bool
  fileOutcome : FileOutcome
deriving DecidableEq, Repr

/-- Statistics calls made during a handler run, in program order:
`increment_active_connections`, `decrement_active_connections`,
`update_stats_with_code` (only the status-code argument matters to the
claims; the byte count is omitted), and `add_response_time`. -/
inductive StatsEvent where
  | inc
  | dec
  | record (code : Int)
  | addTime
deriving DecidableEq, Repr

/-- Scan for the substring `".."` as `strstr(req.path, "..")` does
(src/http.c:293). -/
def hasDotDot : List Char → Bool
  | [] => false
  | [_] => false
  | a :: b :: rest => (a == '.' && b == '.') || hasDotDot (b :: rest)

/-- Query-string removal (src/http.c:289-290): the path is cut at the first
`?` before the traversal check. -/
def stripQuery (p : String) : String :=
  String.mk (p.toList.takeWhile (fun c => c != '?'))

/-- Trace of `send_file_response` (src/http.c:86-211): the status line of
the response sent, and the statistics calls made.  A cache hit sends 200 and
records 200; `fopen` failure sends 404 and records 404; `fstat` failure
sends 500 and records 500; a directory sends 403 but records 500
(src/http.c:138-144); a regular file sends 200 and records 200 whether or
not it was inserted into the cache. -/
def send_file_response_trace (env : RequestEnv) : Int × List StatsEvent :=
  if env.cacheAvailable && env.cacheHit then (200, [.record 200])
  else
    match env.fileOutcome with
    | .openFail => (404, [.record 404])
    | .statFail => (500, [.record 500])
    | .isDir => (403, [.record 500])
    | .ok _ => (200, [.record 200])

/-- Trace of `handle_client_connection` (src/http.c:216-321): the status of
the response sent (`none` when the connection is dropped without a
response) and the statistics calls made, in program order.  Branches, in
source order: failed read (close, decrement, return); parse failure (400
sent, code 500 recorded, close, return — no decrement in the source);
unsupported method (501 sent, 500 recorded, close, return — no decrement);
the three priority endpoints (200 sent and recorded, close, decrement);
path-traversal rejection after query stripping, skipped for the bare `/`
target (403 sent, 500 recorded, close, return — no decrement); otherwise
file delivery followed by close, `add_response_time`, decrement. -/
def handle_client_connection_trace (env : RequestEnv) :
    Option Int × List StatsEvent :=
  if env.bytes_read ≤ 0 then (none, [.inc, .dec])
  else
    match env.parsed with
    | none => (some 400, [.inc, .record 500])
    | some req =>
        if req.method ≠ "GET" ∧ req.method ≠ "HEAD" then
          (some 501, [.inc, .record 500])
        else if req.path = "/health" ∨ req.path = "/metrics" ∨
            req.path = "/stats" then
          (some 200, [.inc, .record 200, .dec])
        else if req.path ≠ "/" ∧ hasDotDot (stripQuery req.path).toList then
          (some 403, [.inc, .record 500])
        else
          let r := send_file_response_trace env
          (some r.1, [.inc] ++ r.2 ++ [.addTime, .dec])

/-- Environment of a failed read: `recv` returns 0. -/
def envReadFail : RequestEnv :=
  { bytes_read := 0, parsed := none, cacheAvailable := false,
    cacheHit := false, fileOutcome := .openFail }

/-- Environment of a malformed request: `recv` returns data but
`parse_http_request` fails, so the handler replies 400. -/
def env400 : RequestEnv :=
  { bytes_read := 10, parsed := none, cacheAvailable := false,
    cacheHit := false, fileOutcome := .openFail }

/-- Environment of an unsupported method (`POST`), replied 501. -/
def env501 : RequestEnv :=
  { bytes_read := 20, parsed := some { method := "POST", path := "/x" },
    cacheAvailable := false, cacheHit := false, fileOutcome := .openFail }

/-- Environment of a priority endpoint request answered in the handler. -/
def envPriority : RequestEnv :=
  { bytes_read := 20, parsed := some { method := "GET", path := "/health" },
    cacheAvailable := false, cacheHit := false, fileOutcome := .openFail }

/-- Environment of a path-traversal attempt, replied 403. -/
def env403 : RequestEnv :=
  { bytes_read := 30,
    parsed := some { method := "GET", path := "/../etc/passwd" },
    cacheAvailable := false, cacheHit := false, fileOutcome := .openFail }

/-- Environment of a request for an absent file, replied 404. -/
def envMiss : RequestEnv :=
  { bytes_read := 30,
    parsed := some { method := "GET", path := "/no-such" },
    cacheAvailable := true, cacheHit := false, fileOutcome := .openFail }

/-- Environment of a successful file delivery. -/
def envDeliver : RequestEnv :=
  { bytes_read := 40,
    parsed := some { method := "GET", path := "/index.html" },
    cacheAvailable := true, cacheHit := false, fileOutcome := .ok 5 }

-- ============================================================================
-- Lemmas and claim theorems
-- ============================================================================

lemma queueStep_inv {q : ConnectionQueue} (h : QueueInv q) (op : QueueOp) :
    QueueInv (queueStep q op).1 := by
  obtain ⟨h1, h2⟩ := h
  unfold QueueInv
  cases op <;>
      simp only [queueStep, connection_queue_enqueue, connection_queue_try_enqueue,
        connection_queue_dequeue] <;>
      split_ifs <;> simp <;> omega

lemma queueRun_inv {q : ConnectionQueue} (h : QueueInv q) (ops : List QueueOp) :
    QueueInv (queueRun q ops).1 := by
  induction ops generalizing q with
  | nil => exact h
  | cons op ops ih => exact ih (queueStep_inv h op)

/-- C1: for every sequence of enqueue, non-blocking enqueue, and dequeue
operations on an initialized bounded connection queue, the number of occupied
slots (the `filled_slots` counter) stays between 0 and the capacity 100, and
the `empty_slots` and `filled_slots` counters always sum to the capacity. -/
theorem queue_counters_invariant (ops : List QueueOp) :
    (queueRun connection_queue_init ops).1.filled_slots ≤ QUEUE_SIZE ∧
      (queueRun connection_queue_init ops).1.filled_slots +
        (queueRun connection_queue_init ops).1.empty_slots = QUEUE_SIZE :=
  queueRun_inv (by constructor <;> simp [connection_queue_init]) ops

lemma listOf_length (q : ConnectionQueue) : (listOf q).length = q.filled_slots := by
  simp [listOf]

lemma listOf_enq_write {q : ConnectionQueue} (hwf : QueueWF q) (fd : Int)
    (hfill : q.filled_slots < QUEUE_SIZE) :
    listOf { q with
        connections := fun j => if j = q.tail then fd else q.connections j
        tail := (q.tail + 1) % QUEUE_SIZE
        empty_slots := q.empty_slots - 1
        filled_slots := q.filled_slots + 1 } = listOf q ++ [fd] := by
  have htail := hwf.tail_eq
  have hhead := hwf.head_lt
  simp only [listOf, List.range_succ, List.map_append, List.map_cons, List.map_nil]
  congr 1
  · refine List.map_congr_left (fun i hi => ?_)
    have hi' : i < q.filled_slots := List.mem_range.mp hi
    have : (q.head + i) % QUEUE_SIZE ≠ q.tail := by
      rw [htail]; simp only [QUEUE_SIZE] at *; omega
    simp [this]
  · have h : (q.head + q.filled_slots) % QUEUE_SIZE = q.tail := htail.symm
    simp [h]

lemma listOf_deq_read {q : ConnectionQueue} (hwf : QueueWF q)
    (hfill : 0 < q.filled_slots) :
    listOf q = q.connections q.head ::
      listOf { q with
          connections := fun j => if j = q.head then -1 else q.connections j
          head := (q.head + 1) % QUEUE_SIZE
          filled_slots := q.filled_slots - 1
          empty_slots := q.empty_slots + 1 } := by
  have hhead := hwf.head_lt
  have hcount := hwf.count
  obtain ⟨f, hf⟩ : ∃ f, q.filled_slots = f + 1 := ⟨q.filled_slots - 1, by omega⟩
  simp only [listOf, hf, List.range_succ_eq_map, List.map_cons, List.map_map,
    Nat.add_sub_cancel]
  congr 1
  · have h0 : (q.head + 0) % QUEUE_SIZE = q.head := by
      simp only [QUEUE_SIZE] at *; omega
    rw [h0]
  · refine List.map_congr_left (fun i hi => ?_)
    have hi' : i < f := List.mem_range.mp hi
    have hle : q.filled_slots ≤ QUEUE_SIZE := by simp only [QUEUE_SIZE] at *; omega
    have h1 : ((q.head + 1) % QUEUE_SIZE + i) % QUEUE_SIZE =
        (q.head + Nat.succ i) % QUEUE_SIZE := by
      simp only [QUEUE_SIZE] at *; omega
    have h2 : (q.head + Nat.succ i) % QUEUE_SIZE ≠ q.head := by
      simp only [QUEUE_SIZE] at *; omega
    simp only [Function.comp_apply]
    rw [h1]
    simp [h2]

lemma queueStep_sim {q : ConnectionQueue} (hwf : QueueWF q) (op : QueueOp) :
    QueueWF (queueStep q op).1 ∧
      listOf (queueStep q op).1 = (absStep (listOf q) op).1 ∧
      (queueStep q op).2 = (absStep (listOf q) op).2 := by
  have hcount := hwf.count
  have hhead := hwf.head_lt
  have htail := hwf.tail_eq
  have hnosd := hwf.nosd
  cases op with
  | enq fd =>
      have hsd : ¬ q.shutdown = true := by simp [hnosd]
      by_cases hfd : fd < 0
      · simp only [queueStep, connection_queue_enqueue, absStep, absEnqueue,
          if_pos hfd]
        exact ⟨hwf, trivial, trivial⟩
      · by_cases hem : q.empty_slots = 0
        · have hfull : (listOf q).length = QUEUE_SIZE := by
            rw [listOf_length]; simp only [QUEUE_SIZE] at *; omega
          simp only [queueStep, connection_queue_enqueue, absStep, absEnqueue,
            if_neg hfd, if_pos hem, if_pos hfull]
          exact ⟨hwf, trivial, trivial⟩
        · have hfill : q.filled_slots < QUEUE_SIZE := by
            simp only [QUEUE_SIZE] at *; omega
          have hnotfull : ¬ (listOf q).length = QUEUE_SIZE := by
            rw [listOf_length]; omega
          simp only [queueStep, connection_queue_enqueue, absStep, absEnqueue,
            if_neg hfd, if_neg hem, if_neg hsd, if_neg hnotfull]
          exact ⟨⟨hhead, by rw [htail]; simp only [QUEUE_SIZE] at *; omega,
            by simp only [QUEUE_SIZE] at *; omega, hnosd⟩,
            listOf_enq_write hwf fd hfill, trivial⟩
  | tryEnq fd =>
      have hsd : ¬ q.shutdown = true := by simp [hnosd]
      by_cases hfd : fd < 0
      · simp only [queueStep, connection_queue_try_enqueue, absStep, absTryEnqueue,
          if_pos hfd]
        exact ⟨hwf, trivial, trivial⟩
      · by_cases hem : q.empty_slots = 0
        · have hfull : (listOf q).length = QUEUE_SIZE := by
            rw [listOf_length]; simp only [QUEUE_SIZE] at *; omega
          simp only [queueStep, connection_queue_try_enqueue, absStep, absTryEnqueue,
            if_neg hfd, if_pos hem, if_pos hfull]
          exact ⟨hwf, trivial, trivial⟩
        · have hfill : q.filled_slots < QUEUE_SIZE := by
            simp only [QUEUE_SIZE] at *; omega
          have hnotfull : ¬ (listOf q).length = QUEUE_SIZE := by
            rw [listOf_length]; omega
          simp only [queueStep, connection_queue_try_enqueue, absStep, absTryEnqueue,
            if_neg hfd, if_neg hem, if_neg hsd, if_neg hnotfull]
          exact ⟨⟨hhead, by rw [htail]; simp only [QUEUE_SIZE] at *; omega,
            by simp only [QUEUE_SIZE] at *; omega, hnosd⟩,
            listOf_enq_write hwf fd hfill, trivial⟩
  | deq =>
      have hsd : ¬ q.shutdown = true := by simp [hnosd]
      by_cases hf0 : q.filled_slots = 0
      · have hnil : listOf q = [] := by
          have h := listOf_length q
          rw [hf0] at h
          exact List.length_eq_zero.mp h
        simp only [queueStep, connection_queue_dequeue, absStep, if_pos hf0, hnil,
          absDequeue]
        exact ⟨hwf, trivial, trivial⟩
      · have hfill : 0 < q.filled_slots := Nat.pos_of_ne_zero hf0
        simp only [queueStep, connection_queue_dequeue, absStep, if_neg hf0,
          if_neg hsd]
        rw [listOf_deq_read hwf hfill]
        simp only [absDequeue]
        exact ⟨⟨Nat.mod_lt _ (by simp only [QUEUE_SIZE]; omega),
          by rw [htail]; simp only [QUEUE_SIZE] at *; omega,
          by simp only [QUEUE_SIZE] at *; omega, hnosd⟩, trivial, trivial⟩

lemma queueRun_sim {q : ConnectionQueue} (hwf : QueueWF q) (ops : List QueueOp) :
    QueueWF (queueRun q ops).1 ∧
      listOf (queueRun q ops).1 = (absRun (listOf q) ops).1 ∧
      (queueRun q ops).2 = (absRun (listOf q) ops).2 := by
  induction ops generalizing q with
  | nil => exact ⟨hwf, rfl, rfl⟩
  | cons op ops ih =>
      obtain ⟨hwf1, habs1, hres1⟩ := queueStep_sim hwf op
      obtain ⟨hwf2, habs2, hres2⟩ := ih hwf1
      refine ⟨hwf2, ?_, ?_⟩
      · simp only [queueRun, absRun]
        rw [habs2, habs1]
      · simp only [queueRun, absRun]
        rw [hres2, habs1, hres1]

lemma init_wf : QueueWF connection_queue_init := by
  constructor <;> simp [connection_queue_init, QUEUE_SIZE]

/-- C2: for every sequence of operations by a single producer and a single
consumer on an initialized connection queue (modelled as any sequential
interleaving of enqueue, non-blocking enqueue, and dequeue), the ring buffer
of size 100 is equivalent to an abstract FIFO list: every operation returns
the same result in both models — so in particular the values returned by
dequeue are exactly the enqueued values in enqueue order — and the
abstraction of the final ring state is the final abstract list. -/
theorem queue_refines_fifo (ops : List QueueOp) :
    (queueRun connection_queue_init ops).2 = (absRun [] ops).2 ∧
      listOf (queueRun connection_queue_init ops).1 = (absRun [] ops).1 := by
  have h0 : listOf connection_queue_init = [] := by
    simp [listOf, connection_queue_init]
  obtain ⟨_, habs, hres⟩ := queueRun_sim init_wf ops
  rw [h0] at habs hres
  exact ⟨hres, habs⟩

-- ============================================================================
-- Non-blocking enqueue on a full queue (claim C3)
-- ============================================================================

/-- C3: for every queue state holding exactly 100 items (the filled-slot
counter at capacity, counters summing to the capacity, so the empty-slot
counter is zero), `connection_queue_try_enqueue` fails immediately with `-1`
("queue full") and returns the state entirely unchanged: no slot is written,
`head` and `tail` are unmodified, and the semaphore counters are untouched. -/
theorem try_enqueue_full_rejects (q : ConnectionQueue) (fd : Int)
    (hfull : q.filled_slots = QUEUE_SIZE)
    (hcount : q.filled_slots + q.empty_slots = QUEUE_SIZE) :
    connection_queue_try_enqueue q fd = (q, .fail) := by
  have hempty : q.empty_slots = 0 := by omega
  unfold connection_queue_try_enqueue
  split_ifs <;> simp_all

theorem try_enqueue_full_rejects_witness :
    connection_queue_try_enqueue fullQueue 5 = (fullQueue, .fail) :=
  try_enqueue_full_rejects fullQueue 5 rfl rfl

-- ============================================================================
-- Cache lemmas and claim theorems (C4, C5, C6, C10)
-- ============================================================================

lemma evict_lru_max (c : FileCache) : (evict_lru c).max_size = c.max_size := by
  unfold evict_lru
  cases c.entries.getLast? <;> rfl

lemma evict_lru_total_le (c : FileCache) :
    (evict_lru c).total_size ≤ c.total_size := by
  unfold evict_lru
  cases c.entries.getLast? with
  | none => exact le_refl _
  | some lru => exact Nat.sub_le _ _

lemma evict_lru_len {c : FileCache} (h : c.entries ≠ []) :
    (evict_lru c).entries.length = c.entries.length - 1 := by
  unfold evict_lru
  cases hl : c.entries.getLast? with
  | none =>
      cases hc : c.entries with
      | nil => exact absurd hc h
      | cons a l => rw [hc] at hl; simp [List.getLast?_concat, List.getLast?] at hl
  | some lru => simp [List.length_dropLast]

lemma evict_lru_wf {c : FileCache} (hwf : CacheWF c) : CacheWF (evict_lru c) := by
  obtain ⟨ht, hc⟩ := hwf
  unfold evict_lru
  cases hl : c.entries.getLast? with
  | none => exact ⟨ht, hc⟩
  | some lru =>
      have hne : c.entries ≠ [] := by
        intro h0
        rw [h0] at hl
        simp at hl
      have hlast : c.entries.getLast hne = lru := by
        have h1 := List.getLast?_eq_getLast c.entries hne
        rw [hl] at h1
        injection h1 with h2
        exact h2.symm
      have hsplit := List.dropLast_append_getLast hne
      have hsum : c.total_size =
          ((c.entries.dropLast).map (fun e => e.content.length)).sum +
            lru.content.length := by
        rw [ht]
        conv_lhs => rw [← hsplit]
        rw [List.map_append, List.sum_append, hlast]
        simp
      refine ⟨?_, ?_⟩
      · simp only []
        omega
      · simp only [List.length_dropLast]
        omega

lemma cacheWF_nil_total {c : FileCache} (hwf : CacheWF c) (h : c.entries = []) :
    c.total_size = 0 := by
  have := hwf.1
  rw [h] at this
  simpa using this

lemma make_space_loop_spec (fuel : Nat) (needed : Nat) :
    ∀ c : FileCache, c.entries.length ≤ fuel → CacheWF c →
      CacheWF (make_space_loop fuel c needed) ∧
        (make_space_loop fuel c needed).max_size = c.max_size ∧
        (make_space_loop fuel c needed).total_size ≤ c.total_size ∧
        ((make_space_loop fuel c needed).total_size + needed ≤ c.max_size ∨
          (make_space_loop fuel c needed).entries = []) := by
  induction fuel with
  | zero =>
      intro c hlen hwf
      have hnil : c.entries = [] := List.length_eq_zero.mp (Nat.le_zero.mp hlen)
      exact ⟨hwf, rfl, le_refl _, Or.inr hnil⟩
  | succ fuel ih =>
      intro c hlen hwf
      unfold make_space_loop
      split_ifs with h
      · obtain ⟨hgt, hne⟩ := h
        have hlen2 : (evict_lru c).entries.length ≤ fuel := by
          rw [evict_lru_len hne]
          have : c.entries.length ≠ 0 := by
            intro h0
            exact hne (List.length_eq_zero.mp h0)
          omega
        obtain ⟨w, hm, htot, hdisj⟩ := ih (evict_lru c) hlen2 (evict_lru_wf hwf)
        refine ⟨w, ?_, ?_, ?_⟩
        · rw [hm, evict_lru_max]
        · exact le_trans htot (evict_lru_total_le c)
        · rcases hdisj with hd | hd
          · rw [evict_lru_max] at hd
            exact Or.inl hd
          · exact Or.inr hd
      · by_cases hA : c.max_size < c.total_size + needed
        · have hB : ¬ c.entries ≠ [] := fun hb => h ⟨hA, hb⟩
          exact ⟨hwf, rfl, le_refl _, Or.inr (not_not.mp hB)⟩
        · exact ⟨hwf, rfl, le_refl _, Or.inl (by omega)⟩

lemma make_space_spec (c : FileCache) (needed : Nat) (hwf : CacheWF c) :
    CacheWF (make_space c needed) ∧
      (make_space c needed).max_size = c.max_size ∧
      (make_space c needed).total_size ≤ c.total_size ∧
      ((make_space c needed).total_size + needed ≤ c.max_size ∨
        (make_space c needed).entries = []) :=
  make_space_loop_spec c.entries.length needed c (le_refl _) hwf

lemma file_cache_get_total (c : FileCache) (path : List Nat) (now : Nat) :
    (file_cache_get c path now).1.total_size = c.total_size := by
  unfold file_cache_get
  cases find_entry c path <;> rfl

lemma put_new_total_le (c : FileCache) (path content : List Nat) (now : Nat)
    (hwf : CacheWF c) (hle : c.total_size ≤ c.max_size)
    (hfind : find_entry c path = none) :
    (file_cache_put c path content now).1.total_size ≤ c.max_size := by
  unfold file_cache_put
  split_ifs with h1 h2 h3
  · exact hle
  · exact hle
  · exact hle
  · rw [hfind]
    simp only []
    obtain ⟨w, hm, htot, hdisj⟩ := make_space_spec c content.length hwf
    rcases hdisj with hd | hd
    · omega
    · have h0 : (make_space c content.length).total_size = 0 :=
        cacheWF_nil_total w hd
      omega

/-- C4 counterexample: a cache state satisfying `total_bytes ≤ max_bytes` on
which one cache operation — `file_cache_put` replacing the existing key
`[112]` with a 1 MiB buffer — leaves `total_bytes > max_bytes`: the
existing-key update path of src/file_cache.c adjusts `total_size` without
calling `make_space`. -/
theorem cache_total_bound_violated :
    overfullPre.total_size ≤ overfullPre.max_size ∧
      overfullPre.max_size <
        (file_cache_put overfullPre [112] (List.replicate 1048576 0) 1).1.total_size := by
  have hlen : (List.replicate 1048576 (0 : Nat)).length = 1048576 :=
    List.length_replicate 1048576 0
  have hfind : find_entry overfullPre [112] =
      some { path := [112], content := [0], last_access := 0 } := by
    unfold find_entry overfullPre
    rw [List.find?_cons_of_neg _ (by decide), List.find?_cons_of_pos _ (by decide)]
  have hmax : overfullPre.max_size = 1048576 := rfl
  have htot : overfullPre.total_size = 1048576 := rfl
  constructor
  · exact le_refl _
  · unfold file_cache_put
    rw [hlen, hfind, if_neg (by norm_num), if_neg (by norm_num [MAX_FILE_SIZE]),
      if_neg (by rw [hmax]; norm_num)]
    dsimp only
    rw [hmax, htot]
    simp only [List.length_cons, List.length_nil]
    omega

/-- C4 (amended): on every wellformed cache state with
`total_bytes ≤ max_bytes`, lookup, eviction, `make_space`, stats and destroy
preserve `total_bytes ≤ max_bytes`, and so does `file_cache_put` of a key not
in the cache; but `file_cache_put` replacing an existing entry `e` merely
sets `total_bytes` to `total_bytes - |e| + |content|`, which can exceed
`max_bytes` (no eviction is performed on that path). -/
theorem cache_ops_total_bound (c : FileCache) (path content : List Nat)
    (now : Nat) (hwf : CacheWF c) (hle : c.total_size ≤ c.max_size) :
    (file_cache_get c path now).1.total_size ≤ c.max_size ∧
      (evict_lru c).total_size ≤ c.max_size ∧
      (make_space c content.length).total_size ≤ c.max_size ∧
      (file_cache_stats c).2 ≤ c.max_size ∧
      (file_cache_destroy c).total_size ≤ c.max_size ∧
      (find_entry c path = none →
        (file_cache_put c path content now).1.total_size ≤ c.max_size) ∧
      (∀ e, find_entry c path = some e → content.length ≠ 0 →
        content.length ≤ MAX_FILE_SIZE → content.length ≤ c.max_size →
        (file_cache_put c path content now).1.total_size =
          c.total_size - e.content.length + content.length) := by
  refine ⟨?_, ?_, ?_, hle, ?_, ?_, ?_⟩
  · rw [file_cache_get_total]
    exact hle
  · exact le_trans (evict_lru_total_le c) hle
  · exact le_trans (make_space_spec c content.length hwf).2.2.1 hle
  · exact Nat.zero_le _
  · exact fun hfind => put_new_total_le c path content now hwf hle hfind
  · intro e hfind hne hmaxf hmaxc
    unfold file_cache_put
    rw [if_neg hne, if_neg (by omega), if_neg (by omega), hfind]

theorem cache_ops_total_bound_witness :
    CacheWF (file_cache_destroy overfullPre) ∧
      (file_cache_destroy overfullPre).total_size ≤
        (file_cache_destroy overfullPre).max_size ∧
      (file_cache_get (file_cache_destroy overfullPre) [112] 0).1.total_size ≤
        (file_cache_destroy overfullPre).max_size :=
  ⟨⟨rfl, rfl⟩, Nat.zero_le _,
    (cache_ops_total_bound (file_cache_destroy overfullPre) [112] [1] 0
      ⟨rfl, rfl⟩ (Nat.zero_le _)).1⟩

lemma file_cache_init_one : file_cache_init 1 = some cacheMiB := rfl

lemma file_cache_init_two : file_cache_init 2 = some cache2MiB := rfl

lemma find_entry_some_path {c : FileCache} {path : List Nat} {e : CacheEntry}
    (h : find_entry c path = some e) : e.path = path := by
  unfold find_entry at h
  simpa using List.find?_some h

/-- C5 (amended): after a successful `file_cache_put c path content now`
(return value 0) where `path` is shorter than the `MAX_PATH_LEN`-byte key
buffer, an immediately following `file_cache_get` on the same path reports a
hit whose buffer is identical to `content` (and hence of identical size).
No free-space hypothesis is needed: insertion happens after eviction and a
fresh or replaced entry sits at the front of the recency list. -/
theorem put_then_get_roundtrip (c : FileCache) (path content : List Nat)
    (now now2 : Nat) (hlen : path.length < MAX_PATH_LEN)
    (hput : (file_cache_put c path content now).2 = 0) :
    (file_cache_get (file_cache_put c path content now).1 path now2).2 =
      some content := by
  unfold file_cache_put at hput ⊢
  split_ifs at hput ⊢ with h1 h2 h3
  · simp at hput
  · simp at hput
  · simp at hput
  · cases hfind : find_entry c path with
    | some existing =>
        have hp : existing.path = path := find_entry_some_path hfind
        dsimp only
        unfold file_cache_get find_entry
        dsimp only
        rw [List.find?_cons_of_pos _ (by simp [hp])]
    | none =>
        dsimp only
        unfold file_cache_get find_entry
        dsimp only
        have htake : path.take (MAX_PATH_LEN - 1) = path :=
          List.take_of_length_le (by omega)
        rw [List.find?_cons_of_pos _ (by simp [htake])]

set_option maxRecDepth 40000 in
/-- C5 counterexample: with a 512-byte path, `file_cache_put` succeeds but
stores the key truncated to 511 bytes (`strncpy` with `MAX_PATH_LEN - 1`),
so the immediately following `file_cache_get` with the same path misses:
the claim fails without a bound on the path length. -/
theorem put_get_truncation_miss :
    (file_cache_put cacheMiB longPath [1] 0).2 = 0 ∧
      (file_cache_get (file_cache_put cacheMiB longPath [1] 0).1 longPath 1).2 =
        none := by
  decide

theorem put_then_get_roundtrip_witness :
    [112].length < MAX_PATH_LEN ∧
      (file_cache_put cacheMiB [112] [5, 6] 0).2 = 0 ∧
      (file_cache_get (file_cache_put cacheMiB [112] [5, 6] 0).1 [112] 1).2 =
        some [5, 6] :=
  ⟨by decide, by decide,
    put_then_get_roundtrip cacheMiB [112] [5, 6] 0 1 (by decide) (by decide)⟩

/-- C6 counterexample: the file-delivery path's cacheability test
(src/http.c:150) is `file_size < MAX_FILE_SIZE`, strict, so a file of
exactly 1 MiB is not read into memory and not inserted into the cache on a
cache miss — contradicting the claim that a 1 MiB file is "inserted by the
file-delivery path", even though `file_cache_put` itself accepts 1 MiB. -/
theorem mib_not_delivery_cacheable :
    is_cacheable true (MAX_FILE_SIZE : Int) = false := by
  decide

/-- C6 (amended): a file of exactly 1 MiB is accepted by `file_cache_put`
(on a cache with room), but the file-delivery path caches only files
strictly smaller than 1 MiB, so on a cache miss a 1 MiB file is served
without being inserted; a file of 1 MiB + 1 byte is rejected by
`file_cache_put` and by the delivery-path test, hence never cached. -/
theorem mib_boundary_caching :
    (file_cache_put cache2MiB [97] (List.replicate MAX_FILE_SIZE 0) 0).2 = 0 ∧
      is_cacheable true (MAX_FILE_SIZE : Int) = false ∧
      (file_cache_put cache2MiB [97] (List.replicate (MAX_FILE_SIZE + 1) 0) 0).2 =
        -1 ∧
      is_cacheable true ((MAX_FILE_SIZE : Int) + 1) = false := by
  have hm : cache2MiB.max_size = 2097152 := rfl
  refine ⟨?_, by decide, ?_, by decide⟩
  · unfold file_cache_put
    rw [List.length_replicate,
      if_neg (by norm_num [MAX_FILE_SIZE]), if_neg (by omega),
      if_neg (by rw [hm]; norm_num [MAX_FILE_SIZE]),
      show find_entry cache2MiB [97] = none from rfl]
  · unfold file_cache_put
    rw [List.length_replicate, if_neg (by norm_num [MAX_FILE_SIZE]),
      if_pos (by omega)]

/-- C10: `file_cache_put` called through its argument guards with a NULL
cache, NULL path, NULL content, or a zero content size returns `-1` and
leaves the cache entirely unchanged — no entry is added, and `entry_count`,
`total_size` and the recency list are exactly as before — so in particular a
zero-byte file can never be cached. -/
theorem put_null_or_empty_rejected (cache : Option FileCache)
    (path content : Option (List Nat)) (now : Nat)
    (h : cache = none ∨ path = none ∨ content = none ∨ content = some []) :
    file_cache_put_checked cache path content now = (cache, -1) := by
  cases cache with
  | none => cases path <;> cases content <;> rfl
  | some c =>
      cases path with
      | none => cases content <;> rfl
      | some p =>
          cases content with
          | none => rfl
          | some b =>
              have hb : b = [] := by
                rcases h with h | h | h | h
                · simp at h
                · simp at h
                · simp at h
                · simpa using h
              subst hb
              rfl

theorem put_null_or_empty_rejected_witness :
    file_cache_put_checked (some cacheMiB) (some [47]) (some []) 3 =
      (some cacheMiB, -1) :=
  put_null_or_empty_rejected (some cacheMiB) (some [47]) (some []) 3
    (Or.inr (Or.inr (Or.inr rfl)))

-- ============================================================================
-- Handler and statistics claim theorems (C7, C8, C9)
-- ============================================================================

/-- C7: the handler does NOT balance the active-connection gauge on every
path.  Evaluating `handle_client_connection` at concrete per-connection
environments: the failed-read, priority-endpoint and file-delivery paths
perform exactly one increment and one decrement, but the malformed-request
(400), unsupported-method (501) and path-traversal (403) paths perform one
increment and NO decrement before returning — the gauge leaks one count on
each such request. -/
theorem handler_gauge_leak :
    ((handle_client_connection_trace envReadFail).2.count .inc = 1 ∧
      (handle_client_connection_trace envReadFail).2.count .dec = 1) ∧
    ((handle_client_connection_trace envPriority).2.count .inc = 1 ∧
      (handle_client_connection_trace envPriority).2.count .dec = 1) ∧
    ((handle_client_connection_trace envDeliver).2.count .inc = 1 ∧
      (handle_client_connection_trace envDeliver).2.count .dec = 1) ∧
    ((handle_client_connection_trace envMiss).2.count .inc = 1 ∧
      (handle_client_connection_trace envMiss).2.count .dec = 1) ∧
    ((handle_client_connection_trace env400).2.count .inc = 1 ∧
      (handle_client_connection_trace env400).2.count .dec = 0) ∧
    ((handle_client_connection_trace env501).2.count .inc = 1 ∧
      (handle_client_connection_trace env501).2.count .dec = 0) ∧
    ((handle_client_connection_trace env403).2.count .inc = 1 ∧
      (handle_client_connection_trace env403).2.count .dec = 0) := by
  decide

/-- C8 counterexample: on a malformed request the handler sends a 400
response but records status 500 in the statistics
(`update_stats_with_code(strlen(body), 500)` at src/http.c:238), so the
statistics are not updated with the status code of the response actually
sent. -/
theorem error_recorded_code_mismatch :
    (handle_client_connection_trace env400).1 = some 400 ∧
      (handle_client_connection_trace env400).2.count (.record 400) = 0 ∧
      (handle_client_connection_trace env400).2.count (.record 500) = 1 := by
  decide

/-- C8 (amended): among the per-connection failure responses only the 404
path records its own status code; the 400, 501 and 403 paths all record
code 500 (and are therefore counted in the 5xx class).
`update_stats_with_code` itself increments the total request count by one
and exactly the matching code counter: the 200 counter exactly for code
200, the 404 counter exactly for code 404, and the 5xx counter exactly for
codes `>= 500`. -/
theorem error_stats_recording (s : ServerStats) (bytes code : Int) :
    ((handle_client_connection_trace env400).1 = some 400 ∧
      (handle_client_connection_trace env400).2.count (.record 500) = 1) ∧
    ((handle_client_connection_trace env501).1 = some 501 ∧
      (handle_client_connection_trace env501).2.count (.record 500) = 1) ∧
    ((handle_client_connection_trace env403).1 = some 403 ∧
      (handle_client_connection_trace env403).2.count (.record 500) = 1) ∧
    ((handle_client_connection_trace envMiss).1 = some 404 ∧
      (handle_client_connection_trace envMiss).2.count (.record 404) = 1) ∧
    (update_stats_with_code s bytes code).total_requests =
      s.total_requests + 1 ∧
    (update_stats_with_code s bytes code).bytes_sent = s.bytes_sent + bytes ∧
    (update_stats_with_code s bytes code).http_200_count =
      s.http_200_count + (if code = 200 then 1 else 0) ∧
    (update_stats_with_code s bytes code).http_404_count =
      s.http_404_count + (if code = 404 then 1 else 0) ∧
    (update_stats_with_code s bytes code).http_500_count =
      s.http_500_count + (if 500 ≤ code then 1 else 0) := by
  refine ⟨by decide, by decide, by decide, by decide, ?_, ?_, ?_, ?_, ?_⟩ <;>
    · unfold update_stats_with_code
      split_ifs <;> simp_all

/-- C9 counterexample: the `server_stats_t` record of the current source
(src/stats.h:9-26) has no snapshot pair — neither a
`last_total_response_time_ms` nor a `last_response_count` field — and the
statistics interface (src/stats.h:31-39) declares no `snapshot_delta_reset`
operation, so the claimed snapshot/delta mechanism for the `/metrics`
"since last call" average does not exist in the code. -/
theorem stats_no_snapshot :
    "last_total_response_time_ms" ∉ serverStatsFields ∧
      "last_response_count" ∉ serverStatsFields ∧
      "snapshot_delta_reset" ∉ statsInterface := by
  decide

/-- C9 (amended): the shared statistics record maintains only the
accumulated response time and sample count — `add_response_time` adds the
sample and increments the count — with no snapshot pair of those fields and
no `snapshot_delta_reset` operation; the `/metrics` average can only be the
overall average of the accumulator. -/
theorem stats_accumulator_only (s : ServerStats) (ms : Int) :
    "total_response_time_ms" ∈ serverStatsFields ∧
      "response_count" ∈ serverStatsFields ∧
      "last_total_response_time_ms" ∉ serverStatsFields ∧
      "last_response_count" ∉ serverStatsFields ∧
      "snapshot_delta_reset" ∉ statsInterface ∧
      (add_response_time s ms).total_response_time_ms =
        s.total_response_time_ms + ms ∧
      (add_response_time s ms).response_count = s.response_count + 1 :=
  ⟨by decide, by decide, by decide, by decide, by decide, rfl, rfl⟩


end Server
